import Mathlib

/-!
Shallow embedding of the gohighlevel-insight knowledge-base pipeline
(supabase edge functions scrape-knowledge-base, vectorize-articles and
search-knowledge-base) together with proofs of the spec claims C1..C10.

External HTTP collaborators (the article fetches, the OpenAI embedding
endpoint, the Qdrant vector store and the postgres row writes whose
errors the code checks) are modelled by explicit success oracles; all
pure computation (the regex based HTML extraction, the batching, the
counter and checkpoint logic, the schedule advance loop and the
response shaping) is translated function by function from the source.
-/

set_option maxRecDepth 8000

namespace GHL

/-! ## A small backtracking matcher for the exact regexes of the source

The scraper uses a fixed set of JavaScript regexes, all of the shape
literal / negated-character-class-star / lazy-dot-star sequences with a
single capture group and optional `i` flags.  `RItem` is one item of
such a pattern; `mseq` matches a sequence of items against a prefix of
the input with full backtracking (greedy classes try longest first,
the lazy dot-star tries shortest first), and `mcap` additionally
reports the extent of the single capture group. -/

inductive RItem where
  | lit (s : List Char)
  | excl (bad : List Char) (lo : Nat)
  | anyLazy
deriving DecidableEq

/-- Case-insensitive character comparison, used for the `i` regex flag. -/
def lcEq (a b : Char) : Bool := a.toLower == b.toLower

/-- Case-insensitive test that `l` is an initial segment of `s`. -/
def litAt : List Char → List Char → Bool
  | [], _ => true
  | _ :: _, [] => false
  | a :: as, b :: bs => lcEq a b && litAt as bs

/-- Length of the maximal initial segment of `s` avoiding the characters `bad`. -/
def countNotIn (bad : List Char) : List Char → Nat
  | [] => 0
  | c :: cs => if bad.contains c then 0 else countNotIn bad cs + 1

/-- Match a sequence of items against an initial segment of `s`; returns the
number of characters consumed.  Greedy classes enumerate candidate lengths
from longest to shortest, the lazy any-star from shortest to longest, so the
first success found has exactly the JavaScript backtracking semantics. -/
def mseq : List RItem → List Char → Option Nat
  | [], _ => some 0
  | .lit l :: rest, s =>
    if litAt l s then (mseq rest (s.drop l.length)).map (· + l.length) else none
  | .excl bad lo :: rest, s =>
    let m := countNotIn bad s
    if lo ≤ m then
      ((List.range (m + 1 - lo)).map (fun k => m - k)).findSome?
        (fun i => (mseq rest (s.drop i)).map (· + i))
    else none
  | .anyLazy :: rest, s =>
    (List.range (s.length + 1)).findSome?
      (fun i => (mseq rest (s.drop i)).map (· + i))

/-- Match `cap` and then the items `post`, reporting how much the capture
group and the tail consumed. -/
def mcapTail (cap : RItem) (post : List RItem) (s : List Char) : Option (Nat × Nat) :=
  match cap with
  | .lit l =>
    if litAt l s then (mseq post (s.drop l.length)).map (fun p => (l.length, p)) else none
  | .excl bad lo =>
    let m := countNotIn bad s
    if lo ≤ m then
      ((List.range (m + 1 - lo)).map (fun k => m - k)).findSome?
        (fun i => (mseq post (s.drop i)).map (fun p => (i, p)))
    else none
  | .anyLazy =>
    (List.range (s.length + 1)).findSome?
      (fun i => (mseq post (s.drop i)).map (fun p => (i, p)))

/-- Match `pre`, a capture item and `post` at the start of `s`; returns the
lengths consumed by the three parts, with backtracking across all of them. -/
def mcap : List RItem → RItem → List RItem → List Char → Option (Nat × Nat × Nat)
  | [], cap, post, s => (mcapTail cap post s).map (fun cp => (0, cp.1, cp.2))
  | .lit l :: rest, cap, post, s =>
    if litAt l s then
      (mcap rest cap post (s.drop l.length)).map (fun acp => (acp.1 + l.length, acp.2))
    else none
  | .excl bad lo :: rest, cap, post, s =>
    let m := countNotIn bad s
    if lo ≤ m then
      ((List.range (m + 1 - lo)).map (fun k => m - k)).findSome?
        (fun i => (mcap rest cap post (s.drop i)).map (fun acp => (acp.1 + i, acp.2)))
    else none
  | .anyLazy :: rest, cap, post, s =>
    (List.range (s.length + 1)).findSome?
      (fun i => (mcap rest cap post (s.drop i)).map (fun acp => (acp.1 + i, acp.2)))

/-- A pattern with a single capture group, as used by `String.match`. -/
structure RPat where
  pre : List RItem
  cap : RItem
  post : List RItem
deriving DecidableEq

/-- Leftmost match of the pattern in `s`, returning the text of the capture
group; this is the semantics of `s.match(re)` followed by reading group 1. -/
def scanCap (p : RPat) : List Char → Option (List Char)
  | [] =>
    match mcap p.pre p.cap p.post [] with
    | some _ => some []
    | none => none
  | s@(_ :: tail) =>
    match mcap p.pre p.cap p.post s with
    | some (a, c, _) => some ((s.drop a).take c)
    | none => scanCap p tail

/-- Recursion core of the global replace; the fuel argument starts at the
input length and always dominates the remaining length, so the zero-fuel
branch is never reached from replaceAllPat. -/
def replaceAllPatAux (items : List RItem) (repl : List Char) : Nat → List Char → List Char
  | _, [] => []
  | 0, s => s
  | fuel + 1, c :: tail =>
    match mseq items (c :: tail) with
    | some n =>
      if n = 0 then c :: replaceAllPatAux items repl fuel tail
      else repl ++ replaceAllPatAux items repl fuel ((c :: tail).drop n)
    | none => c :: replaceAllPatAux items repl fuel tail

/-- Global replace of every (leftmost, non-overlapping) match of the item
sequence by `repl`; this is the semantics of `s.replace(re_g, repl)` for the
replacement strings the source uses (the empty string and a space). -/
def replaceAllPat (items : List RItem) (repl : List Char) (s : List Char) : List Char :=
  replaceAllPatAux items repl s.length s

/-- The whitespace characters of the JavaScript regex class `\s` that can
occur in fetched ASCII HTML. -/
def isWs (c : Char) : Bool :=
  c == ' ' || c == '\t' || c == '\n' || c == '\r' || c == '\x0b' || c == '\x0c'

/-- Single pass collapsing whitespace runs; the flag records whether the
previous character belonged to a run already replaced by one space. -/
def collapseWsAux : Bool → List Char → List Char
  | _, [] => []
  | inWs, c :: cs =>
    if isWs c then
      (if inWs then collapseWsAux true cs else ' ' :: collapseWsAux true cs)
    else c :: collapseWsAux false cs

/-- Collapse every whitespace run to one space: `s.replace(ws_plus_g, onespace)`. -/
def collapseWs (s : List Char) : List Char := collapseWsAux false s

/-- Strip leading and trailing whitespace: the semantics of `trim()`. -/
def trimChars (s : List Char) : List Char :=
  ((s.dropWhile isWs).reverse.dropWhile isWs).reverse

/-- Single pass splitter accumulating the current word in reverse. -/
def splitWsAux : List Char → List Char → List (List Char)
  | [], acc => if acc.isEmpty then [] else [acc.reverse]
  | c :: cs, acc =>
    if isWs c then
      (if acc.isEmpty then splitWsAux cs [] else acc.reverse :: splitWsAux cs [])
    else splitWsAux cs (c :: acc)

/-- Split on whitespace runs, dropping empty tokens (the source always trims
before splitting, and filters out short tokens, so the JavaScript empty-edge
tokens never survive anyway). -/
def splitWs (s : List Char) : List (List Char) := splitWsAux s []

/-! ## The HTML extraction helpers of scrape-knowledge-base/index.ts

Each pattern below is the translation of one JavaScript regex literal of the
source into the `RItem` representation. -/

/-- Pattern of the regex matching a title tag with its inner text as group 1
(case-insensitive). -/
def titlePat : RPat :=
  { pre := [.lit ("<title".toList), .excl ['>'] 0, .lit ['>']],
    cap := .excl ['<'] 1,
    post := [.lit ("</title>".toList)] }

/-- Pattern of the regex matching a first-level heading tag with its inner
text as group 1 (case-insensitive). -/
def h1Pat : RPat :=
  { pre := [.lit ("<h1".toList), .excl ['>'] 0, .lit ['>']],
    cap := .excl ['<'] 1,
    post := [.lit ("</h1>".toList)] }

/-- The function extractTitle: first title-tag text, else first heading
text, trimmed and with whitespace runs collapsed; null when neither regex
matches. -/
def extractTitle (html : List Char) : Option (List Char) :=
  match scanCap titlePat html with
  | some t => some (collapseWs (trimChars t))
  | none =>
    match scanCap h1Pat html with
    | some t => some (collapseWs (trimChars t))
    | none => none

/-- Item sequence of the global regex removing script elements. -/
def scriptPat : List RItem :=
  [.lit ("<script".toList), .excl ['>'] 0, .lit ['>'], .anyLazy, .lit ("</script>".toList)]

/-- Item sequence of the global regex removing style elements. -/
def stylePat : List RItem :=
  [.lit ("<style".toList), .excl ['>'] 0, .lit ['>'], .anyLazy, .lit ("</style>".toList)]

/-- Item sequence of the global regex matching any remaining tag. -/
def tagPat : List RItem := [.lit ['<'], .excl ['>'] 1, .lit ['>']]

/-- Pattern capturing the body of an article element. -/
def articlePat : RPat :=
  { pre := [.lit ("<article".toList), .excl ['>'] 0, .lit ['>']],
    cap := .anyLazy,
    post := [.lit ("</article>".toList)] }

/-- Pattern capturing the body of a div whose class attribute mentions
content. -/
def divContentPat : RPat :=
  { pre := [.lit ("<div".toList), .excl ['>'] 0, .lit ("class=\"".toList),
            .excl ['"'] 0, .lit ("content".toList), .excl ['"'] 0, .lit ['"'],
            .excl ['>'] 0, .lit ['>']],
    cap := .anyLazy,
    post := [.lit ("</div>".toList)] }

/-- Pattern capturing the body of a div whose class attribute mentions
article. -/
def divArticlePat : RPat :=
  { pre := [.lit ("<div".toList), .excl ['>'] 0, .lit ("class=\"".toList),
            .excl ['"'] 0, .lit ("article".toList), .excl ['"'] 0, .lit ['"'],
            .excl ['>'] 0, .lit ['>']],
    cap := .anyLazy,
    post := [.lit ("</div>".toList)] }

/-- Pattern capturing the body of a main element. -/
def mainPat : RPat :=
  { pre := [.lit ("<main".toList), .excl ['>'] 0, .lit ['>']],
    cap := .anyLazy,
    post := [.lit ("</main>".toList)] }

/-- The ordered contentPatterns array of extractContent. -/
def contentPatterns : List RPat := [articlePat, divContentPat, divArticlePat, mainPat]

/-- The for-loop over contentPatterns: the first pattern that matches
replaces the working string by its captured group, and the loop breaks. -/
def findContainer : List RPat → List Char → List Char
  | [], s => s
  | p :: ps, s =>
    match scanCap p s with
    | some captured => captured
    | none => findContainer ps s

/-- The text produced by extractContent before its length test: script and
style elements removed, the first matching content container selected, tags
replaced by spaces, whitespace collapsed, ends trimmed. -/
def strippedText (html : List Char) : List Char :=
  trimChars (collapseWs (replaceAllPat tagPat [' ']
    (findContainer contentPatterns
      (replaceAllPat stylePat [] (replaceAllPat scriptPat [] html)))))

/-- The function extractContent: the stripped text when it is longer than
100 characters, null otherwise. -/
def extractContent (html : List Char) : Option (List Char) :=
  let textContent := strippedText html
  if textContent.length > 100 then some textContent else none

/-- Pattern capturing the body of a nav element labelled as breadcrumb. -/
def navPat : RPat :=
  { pre := [.lit ("<nav".toList), .excl ['>'] 0,
            .lit ("aria-label=\"breadcrumb\"".toList), .excl ['>'] 0, .lit ['>']],
    cap := .anyLazy,
    post := [.lit ("</nav>".toList)] }

/-- The function extractCategory: the second-to-last breadcrumb token longer
than two characters, the fallback word General when there are fewer than two
such tokens, and null when no breadcrumb nav is found. -/
def extractCategory (html : List Char) : Option (List Char) :=
  match scanCap navPat html with
  | some inner =>
    let breadcrumbText := trimChars (replaceAllPat tagPat [' '] inner)
    let parts := (splitWs breadcrumbText).filter (fun p => p.length > 2)
    if parts.length ≥ 2 then some (parts.getD (parts.length - 2) [])
    else some ("General".toList)
  | none => none

/-! ## Scrape Job Engine (scrape-knowledge-base/index.ts)

The postgres tables are modelled as lists of rows; row identifiers are
natural numbers standing for the generated uuids, and wall-clock instants
are natural numbers standing for the ISO timestamps the code writes.  A
fetch of a URL is an oracle returning the page HTML or null for a network
failure (the only point of scrapeAndStoreArticle that throws, since the
supabase client reports its errors in a result value that the code never
reads). -/

/-- Row of the kb_articles table (the columns the engines touch). -/
structure ArticleRow where
  id : Nat
  title : List Char
  url : String
  content : Option (List Char)
  category : List Char
  last_scraped_at : Nat
  vector_id : Option Nat
  last_indexed_at : Option Nat
deriving DecidableEq

/-- JavaScript truthiness test for a nullable string. -/
def optFalsy : Option (List Char) → Bool
  | none => true
  | some s => s.isEmpty

/-- Article store together with the next fresh row identifier. -/
structure ScrapeState where
  db : List ArticleRow
  freshId : Nat
deriving DecidableEq

/-- The maybeSingle select by url: one row or null (a multi-row result is an
error whose data field is null; the url column is unique in the schema). -/
def findByUrl (db : List ArticleRow) (url : String) : Option ArticleRow :=
  match db.filter (fun r => r.url == url) with
  | [r] => some r
  | _ => none

/-- The update-or-insert of scrapeAndStoreArticle: update the existing row
selected by url (keyed by its id), otherwise insert a new row. -/
def upsertArticle (title : List Char) (url : String) (content : List Char)
    (category : List Char) (now : Nat) (st : ScrapeState) : ScrapeState :=
  match findByUrl st.db url with
  | some existing =>
    { st with db := st.db.map (fun r =>
        if r.id == existing.id then
          { r with title := title, url := url, content := some content,
                   category := category, last_scraped_at := now }
        else r) }
  | none =>
    { db := st.db ++ [{ id := st.freshId, title := title, url := url,
                        content := some content, category := category,
                        last_scraped_at := now, vector_id := none,
                        last_indexed_at := none }],
      freshId := st.freshId + 1 }

/-- The articleData object assembled from one successfully extracted page:
the row content written by the upsert, with the vectorization columns at
their defaults (an update leaves those columns of the existing row
untouched). -/
def scrapedRow (html : List Char) (url : String) (now id0 : Nat) : ArticleRow :=
  { id := id0, title := (extractTitle html).getD [],
    url := url, content := some ((extractContent html).getD []),
    category := (if optFalsy (extractCategory html) then ("General".toList)
      else (extractCategory html).getD []),
    last_scraped_at := now, vector_id := none, last_indexed_at := none }

/-- The function scrapeAndStoreArticle: fetch the page (an error propagates
to the caller), extract title, content and category, skip the page silently
when title or content is missing, otherwise upsert by url. -/
def scrapeAndStoreArticle (fetched : Option (List Char)) (url : String)
    (now : Nat) (st : ScrapeState) : Except Unit ScrapeState :=
  match fetched with
  | none => .error ()
  | some html =>
    let title := extractTitle html
    let content := extractContent html
    let category := extractCategory html
    if optFalsy title || optFalsy content then .ok st
    else
      .ok (upsertArticle (title.getD []) url (content.getD [])
        (if optFalsy category then ("General".toList) else category.getD [])
        now st)

/-- Observable actions of one scrape invocation, in program order: one
attempt per URL of the batch, one progress checkpoint written to the
scraping_jobs row after every sub-batch, the terminal completion update, and
the fire-and-forget self-invocation. -/
inductive ScrapeEvent where
  | attempt (url : String) (ok : Bool)
  | checkpoint (processed failed : Nat)
  | completeJob (processed failed : Nat)
  | selfInvoke (jobId : Nat)
deriving DecidableEq

/-- Mutable state of the processing loop: the article store plus the two
counters initialised from the job row. -/
structure LoopState where
  st : ScrapeState
  processed : Nat
  failed : Nat
deriving DecidableEq

/-- One URL of a sub-batch: a successful scrapeAndStoreArticle increments
the processed counter, a thrown error is caught and increments the failed
counter. -/
def processUrl (fetchOf : String → Option (List Char)) (now : Nat)
    (ls : LoopState) (url : String) : LoopState × ScrapeEvent :=
  match scrapeAndStoreArticle (fetchOf url) url now ls.st with
  | .ok st2 => ({ ls with st := st2, processed := ls.processed + 1 }, .attempt url true)
  | .error _ => ({ ls with failed := ls.failed + 1 }, .attempt url false)

/-- One sub-batch of at most processingBatchSize URLs. -/
def processChunk (fetchOf : String → Option (List Char)) (now : Nat)
    (ls : LoopState) : List String → LoopState × List ScrapeEvent
  | [] => (ls, [])
  | u :: us =>
    let r1 := processUrl fetchOf now ls u
    let r2 := processChunk fetchOf now r1.1 us
    (r2.1, r1.2 :: r2.2)

/-- The slices of length processingBatchSize = 3 taken by the inner for
loop: groups of three with a shorter final group. -/
def chunks3 : List α → List (List α)
  | [] => []
  | [a] => [[a]]
  | [a, b] => [[a, b]]
  | a :: b :: c :: rest => [a, b, c] :: chunks3 rest

/-- The processing for loop: after each sub-batch the current counters are
written to the scraping_jobs row before the next sub-batch begins. -/
def scrapeBatchLoop (fetchOf : String → Option (List Char)) (now : Nat)
    (ls : LoopState) : List (List String) → LoopState × List ScrapeEvent
  | [] => (ls, [])
  | c :: cs =>
    let r1 := processChunk fetchOf now ls c
    let r2 := scrapeBatchLoop fetchOf now r1.1 cs
    (r2.1, r1.2 ++ ScrapeEvent.checkpoint r1.1.processed r1.1.failed :: r2.2)

/-- The scraping_jobs row fields the handler reads; a fresh job is created
with both counters at their column default of zero. -/
structure ScrapeJobRow where
  id : Nat
  processed_urls : Nat
  failed_urls : Nat
deriving DecidableEq

/-- Body of the JSON success response of the scrape endpoint. -/
structure ScrapeResponse where
  jobId : Nat
  processed : Nat
  failed : Nat
  total : Nat
  isComplete : Bool
  nextBatch : Bool
deriving DecidableEq

/-- Result of one scrape invocation: final article store, the ordered
observable actions, and the response body. -/
structure ScrapeRun where
  state : ScrapeState
  events : List ScrapeEvent
  response : ScrapeResponse
deriving DecidableEq

/-- The serve handler of the scrape endpoint after discovery, for a job row
with the discovered URL list: the resume path starts the slice at the
persisted processed count (a fresh job has both counters zero, so it starts
at zero), processes the slice in sub-batches of three with a checkpoint
after each, then either closes the job or fires the continuation call. -/
def scrapeServe (job : ScrapeJobRow) (discoveredUrls : List String)
    (batchSize : Nat) (fetchOf : String → Option (List Char)) (now : Nat)
    (st0 : ScrapeState) : ScrapeRun :=
  let startIndex := job.processed_urls
  let maxBatchArticles := min batchSize 50
  let endIndex := min (startIndex + maxBatchArticles) discoveredUrls.length
  let currentBatch := (discoveredUrls.drop startIndex).take (endIndex - startIndex)
  let r := scrapeBatchLoop fetchOf now
    { st := st0, processed := job.processed_urls, failed := job.failed_urls }
    (chunks3 currentBatch)
  let isComplete := decide (discoveredUrls.length ≤ r.1.processed + r.1.failed)
  { state := r.1.st,
    events := r.2 ++
      (if isComplete then [ScrapeEvent.completeJob r.1.processed r.1.failed]
       else [ScrapeEvent.selfInvoke job.id]),
    response := { jobId := job.id, processed := r.1.processed,
                  failed := r.1.failed, total := discoveredUrls.length,
                  isComplete := isComplete, nextBatch := !isComplete } }

/-- The slice of URLs the invocation processes, as computed by the handler. -/
def currentBatchOf (job : ScrapeJobRow) (discoveredUrls : List String)
    (batchSize : Nat) : List String :=
  (discoveredUrls.drop job.processed_urls).take
    (min (job.processed_urls + min batchSize 50) discoveredUrls.length - job.processed_urls)

/-- The processing loop run of one scrape invocation, as performed by the
handler on the slice of the discovered URLs. -/
def scrapeLoopOf (job : ScrapeJobRow) (discoveredUrls : List String)
    (batchSize : Nat) (fetchOf : String → Option (List Char)) (now : Nat)
    (st0 : ScrapeState) : LoopState × List ScrapeEvent :=
  scrapeBatchLoop fetchOf now
    { st := st0, processed := job.processed_urls, failed := job.failed_urls }
    (chunks3 (currentBatchOf job discoveredUrls batchSize))

/-! ## Dates of the schedule tracking code (vectorize-articles)

A JavaScript Date is modelled by a month counter (twelve times the year
plus the zero-based month), a day-of-month field and the milliseconds
within the day.  The day field is deliberately not normalised: Date
normalisation never changes the underlying instant, and the instant of an
unnormalised civil triple is the first instant of its month plus day
days, which is exactly what toDays computes.  Under this reading,
setDate(getDate() + k) adds k to the day field and setMonth(getMonth() + 1)
adds one to the month counter. -/

/-- Leap year rule of the Gregorian calendar. -/
def isLeapYear (y : Nat) : Bool :=
  (y % 4 == 0 && y % 100 != 0) || y % 400 == 0

/-- Number of days of the month with counter mi (year mi / 12, zero-based
month mi % 12). -/
def monthLen (mi : Nat) : Nat :=
  let m := mi % 12
  if m == 1 then (if isLeapYear (mi / 12) then 29 else 28)
  else if m == 3 || m == 5 || m == 8 || m == 10 then 30
  else 31

/-- Days from the calendar origin to the first day of month mi. -/
def daysBeforeMonth : Nat → Nat
  | 0 => 0
  | n + 1 => daysBeforeMonth n + monthLen n

/-- Date value as manipulated by the schedule code. -/
structure JsDate where
  monthIdx : Nat
  day : Nat
  tod : Nat
deriving DecidableEq

/-- Days from the origin to the (possibly unnormalised) date. -/
def JsDate.toDays (d : JsDate) : Nat := daysBeforeMonth d.monthIdx + d.day

/-- Milliseconds in a day. -/
def msPerDay : Nat := 86400000

/-- The timestamp of the date, which is what JavaScript Date comparison
compares. -/
def JsDate.toMs (d : JsDate) : Nat := d.toDays * msPerDay + d.tod

/-- Frequency derived from the schedule name. -/
inductive Freq where
  | daily
  | weekly
  | monthly
deriving DecidableEq

/-- The function addPeriod of the schedule tracking block: one day, seven
days, or one calendar month. -/
def addPeriod (freq : Freq) (d : JsDate) : JsDate :=
  match freq with
  | .daily => { d with day := d.day + 1 }
  | .weekly => { d with day := d.day + 7 }
  | .monthly => { d with monthIdx := d.monthIdx + 1 }

/-- The while loop advancing nextRun until it is strictly after now. -/
def advanceNextRun (freq : Freq) (now : JsDate) (d : JsDate) : JsDate :=
  if h : d.toMs ≤ now.toMs then advanceNextRun freq now (addPeriod freq d)
  else d
termination_by now.toMs + 1 - d.toMs
decreasing_by
  have hm : 0 < monthLen d.monthIdx := by
    simp only [monthLen]
    split
    · split <;> omega
    · split <;> omega
  have hlt : d.toMs < (addPeriod freq d).toMs := by
    cases freq <;>
      simp only [addPeriod, JsDate.toMs, JsDate.toDays, daysBeforeMonth, msPerDay] <;>
      omega
  omega

/-- Frequency selection from the optionally chained schedule name: daily,
weekly or monthly by name prefix, weekly by default. -/
def freqOfName (name : String) : Freq :=
  if name.startsWith ("daily") then .daily
  else if name.startsWith ("weekly") then .weekly
  else if name.startsWith ("monthly") then .monthly
  else .weekly

/-- Row of the vectorization_schedules table as read by the handler. -/
structure ScheduleRow where
  id : Nat
  schedule_name : String
  next_run_at : Option JsDate
deriving DecidableEq

/-- The computation of the value written to next_run_at: start from the
stored next_run_at, or from two in the morning of today when none is
stored, then advance by the period while not in the future. -/
def computeNextRun (activeSchedule : Option ScheduleRow) (now : JsDate) : JsDate :=
  let freq := match activeSchedule with
    | some s => freqOfName s.schedule_name
    | none => Freq.weekly
  let nextRun0 := match activeSchedule with
    | some s =>
      match s.next_run_at with
      | some d => d
      | none => { now with tod := 7200000 }
    | none => { now with tod := 7200000 }
  advanceNextRun freq now nextRun0

/-! ## Vectorization Job Engine (vectorize-articles, src/unnamed/part_001)

The OpenAI call, the Qdrant point upsert and the kb_articles row update
are each given a success oracle indexed by the article id.  The article
update is issued but its error object is never inspected, so a failing
update leaves the row unchanged while the processed counter is still
incremented. -/

/-- The update written back to the matching vectorization_schedules row. -/
structure ScheduleUpdate where
  scheduleId : Option Nat
  last_run_at : JsDate
  articles_processed : Nat
  articles_failed : Nat
  statusRunning : Bool
  next_run_at : JsDate
deriving DecidableEq

/-- Observable writes of one vectorize invocation, in program order. -/
inductive VecEvent where
  | createCollection
  | upsertPoint (id : Nat)
  | updateArticle (id : Nat)
  | updateSchedule (u : ScheduleUpdate)
  | selfInvoke
deriving DecidableEq

/-- Mutable state of the vectorize processing loop. -/
structure VecState where
  db : List ArticleRow
  processed : Nat
  failed : Nat
deriving DecidableEq

/-- Eligibility filter of the article select and of the remaining-count
query: no vector reference yet and non-null content. -/
def eligible (a : ArticleRow) : Bool := a.vector_id.isNone && a.content.isSome

/-- Processing of one article: a failing embedding call counts a failure; a
stored point followed by the row update counts a success, where the row
update error is not checked, so the row keeps its old value when that
update fails while the success is still counted. -/
def vecProcessArticle (embedOk qdrantOk dbUpdateOk : Nat → Bool) (now : Nat)
    (vs : VecState) (a : ArticleRow) : VecState × List VecEvent :=
  if embedOk a.id then
    if qdrantOk a.id then
      ({ vs with
          db := if dbUpdateOk a.id then
              vs.db.map (fun r =>
                if r.id == a.id then
                  { r with vector_id := some a.id, last_indexed_at := some now }
                else r)
            else vs.db,
          processed := vs.processed + 1 },
        [.upsertPoint a.id, .updateArticle a.id])
    else
      ({ vs with failed := vs.failed + 1 }, [.upsertPoint a.id])
  else
    ({ vs with failed := vs.failed + 1 }, [])

/-- One sub-batch of at most three articles. -/
def vecProcessChunk (embedOk qdrantOk dbUpdateOk : Nat → Bool) (now : Nat)
    (vs : VecState) : List ArticleRow → VecState × List VecEvent
  | [] => (vs, [])
  | a :: as =>
    let r1 := vecProcessArticle embedOk qdrantOk dbUpdateOk now vs a
    let r2 := vecProcessChunk embedOk qdrantOk dbUpdateOk now r1.1 as
    (r2.1, r1.2 ++ r2.2)

/-- The for loop over the sub-batches (the inter-batch delay has no
observable effect on the stores). -/
def vecLoop (embedOk qdrantOk dbUpdateOk : Nat → Bool) (now : Nat)
    (vs : VecState) : List (List ArticleRow) → VecState × List VecEvent
  | [] => (vs, [])
  | c :: cs =>
    let r1 := vecProcessChunk embedOk qdrantOk dbUpdateOk now vs c
    let r2 := vecLoop embedOk qdrantOk dbUpdateOk now r1.1 cs
    (r2.1, r1.2 ++ r2.2)

/-- Body of the JSON response of the vectorize endpoint; the fields that
the early empty-backlog return leaves out of its object literal are
optional. -/
structure VectorizeResponse where
  success : Bool
  message : Option String
  processed : Nat
  failed : Option Nat
  remaining : Nat
  isComplete : Option Bool
  nextBatch : Option Bool
deriving DecidableEq

/-- Result of one vectorize invocation. -/
structure VectorizeRun where
  db : List ArticleRow
  events : List VecEvent
  response : VectorizeResponse
deriving DecidableEq

/-- The articles selected by the batch query. -/
def selectedArticles (db : List ArticleRow) (batchSize : Nat) : List ArticleRow :=
  (db.filter eligible).take batchSize

/-- The serve handler of the vectorize endpoint: ensure the knowledge_base
collection exists (creating it when the collection listing succeeds and
lacks it), select the batch, return early with zero counts when the batch
is empty, otherwise process in sub-batches of three, recount the backlog,
update the schedule row on auto-scheduled runs, fire the continuation when
backlog remains, and answer with the counters. -/
def vectorizeServe (db : List ArticleRow) (batchSize : Nat)
    (autoScheduled : Bool) (collections : List String)
    (collectionsFetchOk : Bool) (embedOk qdrantOk dbUpdateOk : Nat → Bool)
    (activeSchedule : Option ScheduleRow) (now : Nat) (nowDate : JsDate) :
    VectorizeRun :=
  let ensureEvents :=
    if collectionsFetchOk && !(collections.contains ("knowledge_base")) then
      [VecEvent.createCollection]
    else []
  let articles := selectedArticles db batchSize
  if articles.isEmpty then
    { db := db, events := ensureEvents,
      response := { success := true, message := some ("No articles to vectorize"),
                    processed := 0, failed := none, remaining := 0,
                    isComplete := none, nextBatch := none } }
  else
    let r := vecLoop embedOk qdrantOk dbUpdateOk now
      { db := db, processed := 0, failed := 0 } (chunks3 articles)
    let remainingCount := (r.1.db.filter eligible).length
    let schedEvents :=
      if autoScheduled then
        [VecEvent.updateSchedule {
            scheduleId := activeSchedule.map (fun s => s.id),
            last_run_at := nowDate,
            articles_processed := r.1.processed,
            articles_failed := r.1.failed,
            statusRunning := decide (0 < remainingCount),
            next_run_at := computeNextRun activeSchedule nowDate }]
      else []
    let contEvents := if 0 < remainingCount then [VecEvent.selfInvoke] else []
    { db := r.1.db,
      events := ensureEvents ++ r.2 ++ schedEvents ++ contEvents,
      response := { success := true, message := none,
                    processed := r.1.processed, failed := some r.1.failed,
                    remaining := remainingCount,
                    isComplete := some (decide (remainingCount = 0)),
                    nextBatch := some (decide (0 < remainingCount)) } }

/-! ## Search Service (search-knowledge-base/index.ts)

The embedding call and the Qdrant similarity search are oracles that
either answer or fail (a non-success HTTP status, which the handler turns
into a 500 response).  Scores are rationals, standing for the JavaScript
numbers. -/

/-- Payload stored with each point, as written by the vectorize engine. -/
structure QdrantPayload where
  title : List Char
  content : List Char
  url : String
deriving DecidableEq

/-- One hit of the Qdrant search response. -/
structure QdrantHit where
  id : Nat
  score : ℚ
  payload : QdrantPayload
deriving DecidableEq

/-- Body of the search request the handler posts to the points search
route. -/
structure QdrantSearchReq where
  vector : List ℚ
  limit : Nat
  with_payload : Bool
  score_threshold : ℚ
deriving DecidableEq

/-- JSON values occurring in a formatted search result. -/
inductive JVal where
  | str (s : List Char)
  | num (q : ℚ)
  | nat (n : Nat)
deriving DecidableEq

/-- One element of the results array of the search response. -/
structure SearchResultItem where
  id : Nat
  title : List Char
  url : String
  content_preview : List Char
  similarity_score : ℚ
deriving DecidableEq

/-- The JSON object a result serialises to, fields in the order of the
object literal of the source. -/
def SearchResultItem.jsonFields (r : SearchResultItem) : List (String × JVal) :=
  [("id", JVal.nat r.id), ("title", JVal.str r.title), ("url", JVal.str (r.url.toList)),
   ("content_preview", JVal.str r.content_preview),
   ("similarity_score", JVal.num r.similarity_score)]

/-- The map over searchResults.result building formattedResults. -/
def formatResult (r : QdrantHit) : SearchResultItem :=
  { id := r.id, title := r.payload.title, url := r.payload.url,
    content_preview := r.payload.content.take 200 ++ ("...".toList),
    similarity_score := r.score }

/-- Parsed request body of the search endpoint. -/
structure SearchBody where
  query : Option (List Char)
  limit : Option Nat
deriving DecidableEq

/-- Outbound calls of one search invocation, in program order. -/
inductive SearchEvent where
  | embedCall (input : List Char)
  | qdrantSearch (req : QdrantSearchReq)
deriving DecidableEq

/-- Outcome of one search invocation. -/
inductive SearchOutcome where
  | clientError (status : Nat) (msg : String)
  | serverError (status : Nat)
  | ok (query : List Char) (results : List SearchResultItem) (total_found : Nat)
deriving DecidableEq

/-- The serve handler of the search endpoint: a falsy query is rejected
with status 400 before any outbound call; otherwise the query is embedded
(truncated to the provider limit), the points search is issued with the
requested limit, payload inclusion and the fixed similarity threshold of
seven tenths, and each hit is mapped to a result object. -/
def searchServe (body : SearchBody) (embed : List Char → Option (List ℚ))
    (store : QdrantSearchReq → Option (List QdrantHit)) :
    SearchOutcome × List SearchEvent :=
  let limit := body.limit.getD 5
  if optFalsy body.query then
    (.clientError 400 ("Query is required"), [])
  else
    let q := body.query.getD []
    match embed (q.take 8000) with
    | none => (.serverError 500, [.embedCall (q.take 8000)])
    | some emb =>
      let req : QdrantSearchReq :=
        { vector := emb, limit := limit, with_payload := true,
          score_threshold := mkRat 7 10 }
      match store req with
      | none => (.serverError 500, [.embedCall (q.take 8000), .qdrantSearch req])
      | some hits =>
        (.ok q (hits.map formatResult) (hits.map formatResult).length,
          [.embedCall (q.take 8000), .qdrantSearch req])

/-! ## Observation helpers used by the claim statements -/

/-- URL of an attempt event, none for the persisted writes. -/
def eventUrl : ScrapeEvent → Option String
  | .attempt u _ => some u
  | _ => none

/-- Checkpoint discipline of a scrape event trace relative to the counter
base start: every persisted counter pair equals start plus the number of
attempts made so far, and at most three attempts happen between persisted
writes (seen counts attempts so far, sinceCp counts attempts since the last
persisted write). -/
def batchDisciplined (start : Nat) : Nat → Nat → List ScrapeEvent → Bool
  | _, _, [] => true
  | seen, sinceCp, .attempt _ _ :: rest =>
    decide (sinceCp < 3) && batchDisciplined start (seen + 1) (sinceCp + 1) rest
  | seen, _, .checkpoint p f :: rest =>
    (p + f == start + seen) && batchDisciplined start seen 0 rest
  | seen, _, .completeJob p f :: rest =>
    (p + f == start + seen) && batchDisciplined start seen 0 rest
  | seen, _, .selfInvoke _ :: rest => batchDisciplined start seen 0 rest

/-- Concrete page used by witnesses: a title and a body long enough to pass
the hundred-character minimum of extractContent. -/
def pageLong : List Char :=
  ("<title>Doc Title</title><p>" ++ String.mk (List.replicate 110 'a') ++ "</p>").toList

/-- Concrete page used by witnesses: no title tag, no heading, and a body
far below the hundred-character minimum. -/
def pageShort : List Char := ("<p>hi</p>").toList

/-- Concrete article row used by counterexamples and witnesses. -/
def artA : ArticleRow :=
  { id := 5, title := ['t'], url := "u", content := some ['c'],
    category := [], last_scraped_at := 0, vector_id := none,
    last_indexed_at := none }

/-- Concrete schedule row used by the schedule witnesses. -/
def schedA : ScheduleRow :=
  { id := 1, schedule_name := "daily-auto-vectorization",
    next_run_at := some { monthIdx := 0, day := 1, tod := 0 } }

/-- Concrete instant used by the schedule witnesses. -/
def dNow : JsDate := { monthIdx := 0, day := 2, tod := 500 }

/-- Concrete search hit used by the search counterexample and witnesses. -/
def hitA : QdrantHit :=
  { id := 3, score := mkRat 9 10,
    payload := { title := ['t'], content := ['c'], url := "u" } }

/-- Second concrete search hit, with a lower score. -/
def hitB : QdrantHit :=
  { id := 4, score := mkRat 8 10,
    payload := { title := ['s'], content := ['d'], url := "v" } }

/-! ## Helper lemmas about the batching combinators -/

theorem chunks3_flatten (l : List α) : (chunks3 l).flatten = l := by
  induction l using chunks3.induct with
  | case1 => simp [chunks3]
  | case2 a => simp [chunks3]
  | case3 a b => simp [chunks3]
  | case4 a b c rest ih => simp [chunks3, ih]

theorem chunks3_length_le (l : List α) : ∀ c ∈ chunks3 l, c.length ≤ 3 := by
  induction l using chunks3.induct with
  | case1 => simp [chunks3]
  | case2 a => simp [chunks3]
  | case3 a b => simp [chunks3]
  | case4 a b c rest ih =>
    intro d hd
    rw [chunks3] at hd
    rcases List.mem_cons.mp hd with h | h
    · subst h; simp
    · exact ih d h

/-! ## Helper lemmas about the scrape processing loop -/

theorem processUrl_sum (f : String → Option (List Char)) (now : Nat)
    (ls : LoopState) (u : String) :
    (processUrl f now ls u).1.processed + (processUrl f now ls u).1.failed =
      ls.processed + ls.failed + 1 := by
  unfold processUrl
  cases scrapeAndStoreArticle (f u) u now ls.st <;> simp <;> omega

theorem processUrl_event (f : String → Option (List Char)) (now : Nat)
    (ls : LoopState) (u : String) :
    ∃ b, (processUrl f now ls u).2 = ScrapeEvent.attempt u b := by
  unfold processUrl
  cases scrapeAndStoreArticle (f u) u now ls.st <;> simp

theorem processChunk_sum (f : String → Option (List Char)) (now : Nat) :
    ∀ (c : List String) (ls : LoopState),
      (processChunk f now ls c).1.processed + (processChunk f now ls c).1.failed =
        ls.processed + ls.failed + c.length := by
  intro c
  induction c with
  | nil => intro ls; simp [processChunk]
  | cons u us ih =>
    intro ls
    rcases hpu : processUrl f now ls u with ⟨ls1, e⟩
    have h1 := processUrl_sum f now ls u
    rw [hpu] at h1
    simp only [processChunk, hpu]
    rw [ih]
    simp at h1 ⊢
    omega

theorem processChunk_filterMap (f : String → Option (List Char)) (now : Nat) :
    ∀ (c : List String) (ls : LoopState),
      (processChunk f now ls c).2.filterMap eventUrl = c := by
  intro c
  induction c with
  | nil => intro ls; simp [processChunk]
  | cons u us ih =>
    intro ls
    obtain ⟨b, hb⟩ := processUrl_event f now ls u
    simp only [processChunk, List.filterMap_cons, hb, eventUrl]
    rw [ih]

theorem scrapeBatchLoop_sum (f : String → Option (List Char)) (now : Nat) :
    ∀ (cs : List (List String)) (ls : LoopState),
      (scrapeBatchLoop f now ls cs).1.processed + (scrapeBatchLoop f now ls cs).1.failed =
        ls.processed + ls.failed + cs.flatten.length := by
  intro cs
  induction cs with
  | nil => intro ls; simp [scrapeBatchLoop]
  | cons c cs ih =>
    intro ls
    have h1 := processChunk_sum f now c ls
    simp only [scrapeBatchLoop, List.flatten_cons, List.length_append]
    rw [ih]
    omega

theorem scrapeBatchLoop_filterMap (f : String → Option (List Char)) (now : Nat) :
    ∀ (cs : List (List String)) (ls : LoopState),
      (scrapeBatchLoop f now ls cs).2.filterMap eventUrl = cs.flatten := by
  intro cs
  induction cs with
  | nil => intro ls; simp [scrapeBatchLoop]
  | cons c cs ih =>
    intro ls
    simp only [scrapeBatchLoop, List.flatten_cons, List.filterMap_append,
      List.filterMap_cons, eventUrl]
    rw [processChunk_filterMap, ih]

theorem processChunk_disciplined (f : String → Option (List Char)) (now : Nat)
    (start : Nat) :
    ∀ (c : List String) (ls : LoopState) (seen k : Nat) (rest : List ScrapeEvent),
      c.length + k ≤ 3 →
      ls.processed + ls.failed = start + seen →
      batchDisciplined start (seen + c.length) (k + c.length) rest = true →
      batchDisciplined start seen k ((processChunk f now ls c).2 ++ rest) = true := by
  intro c
  induction c with
  | nil =>
    intro ls seen k rest _ _ h3
    simpa [processChunk] using h3
  | cons u us ih =>
    intro ls seen k rest h1 h2 h3
    obtain ⟨b, hb⟩ := processUrl_event f now ls u
    have hsum := processUrl_sum f now ls u
    simp only [processChunk, List.cons_append, hb, batchDisciplined]
    have hk : k < 3 := by simp at h1; omega
    rw [Bool.and_eq_true]
    refine ⟨by simpa using hk, ?_⟩
    apply ih (processUrl f now ls u).1 (seen + 1) (k + 1) rest
    · simp at h1 ⊢; omega
    · omega
    · have e1 : seen + 1 + us.length = seen + (u :: us).length := by simp; omega
      have e2 : k + 1 + us.length = k + (u :: us).length := by simp; omega
      rw [e1, e2]
      exact h3

theorem scrapeBatchLoop_disciplined (f : String → Option (List Char)) (now : Nat)
    (start : Nat) :
    ∀ (cs : List (List String)) (ls : LoopState) (seen : Nat) (rest : List ScrapeEvent),
      (∀ c ∈ cs, c.length ≤ 3) →
      ls.processed + ls.failed = start + seen →
      batchDisciplined start (seen + cs.flatten.length) 0 rest = true →
      batchDisciplined start seen 0 ((scrapeBatchLoop f now ls cs).2 ++ rest) = true := by
  intro cs
  induction cs with
  | nil =>
    intro ls seen rest _ _ h3
    simpa [scrapeBatchLoop] using h3
  | cons c cs ih =>
    intro ls seen rest h1 h2 h3
    simp only [scrapeBatchLoop, List.cons_append, List.append_assoc]
    apply processChunk_disciplined f now start c ls seen 0
      (ScrapeEvent.checkpoint (processChunk f now ls c).1.processed
        (processChunk f now ls c).1.failed :: ((scrapeBatchLoop f now (processChunk f now ls c).1 cs).2 ++ rest))
    · have := h1 c (by simp)
      omega
    · exact h2
    · simp only [batchDisciplined, Bool.and_eq_true, beq_iff_eq]
      constructor
      · rw [processChunk_sum]; omega
      · apply ih (processChunk f now ls c).1 (seen + c.length) rest
        · intro d hd; exact h1 d (List.mem_cons_of_mem _ hd)
        · rw [processChunk_sum]; omega
        · have e1 : seen + c.length + cs.flatten.length =
              seen + ((c :: cs).flatten).length := by
            simp [List.flatten_cons]; omega
          rw [e1]
          exact h3

theorem scrapeServe_eq (job : ScrapeJobRow) (urls : List String)
    (bs : Nat) (f : String → Option (List Char)) (now : Nat) (st0 : ScrapeState) :
    scrapeServe job urls bs f now st0 =
      { state := (scrapeLoopOf job urls bs f now st0).1.st,
        events := (scrapeLoopOf job urls bs f now st0).2 ++
          (if decide (urls.length ≤ (scrapeLoopOf job urls bs f now st0).1.processed +
              (scrapeLoopOf job urls bs f now st0).1.failed) then
            [ScrapeEvent.completeJob (scrapeLoopOf job urls bs f now st0).1.processed
              (scrapeLoopOf job urls bs f now st0).1.failed]
          else [ScrapeEvent.selfInvoke job.id]),
        response :=
          { jobId := job.id,
            processed := (scrapeLoopOf job urls bs f now st0).1.processed,
            failed := (scrapeLoopOf job urls bs f now st0).1.failed,
            total := urls.length,
            isComplete := decide (urls.length ≤
              (scrapeLoopOf job urls bs f now st0).1.processed +
              (scrapeLoopOf job urls bs f now st0).1.failed),
            nextBatch := !decide (urls.length ≤
              (scrapeLoopOf job urls bs f now st0).1.processed +
              (scrapeLoopOf job urls bs f now st0).1.failed) } } := rfl

theorem scrapeServe_filterMap (job : ScrapeJobRow) (urls : List String)
    (bs : Nat) (f : String → Option (List Char)) (now : Nat) (st0 : ScrapeState) :
    (scrapeServe job urls bs f now st0).events.filterMap eventUrl =
      currentBatchOf job urls bs := by
  simp only [scrapeServe_eq, scrapeLoopOf, List.filterMap_append]
  rw [scrapeBatchLoop_filterMap, chunks3_flatten]
  split <;> simp [eventUrl]

theorem scrapeServe_disciplined (job : ScrapeJobRow) (urls : List String)
    (bs : Nat) (f : String → Option (List Char)) (now : Nat) (st0 : ScrapeState) :
    batchDisciplined (job.processed_urls + job.failed_urls) 0 0
      (scrapeServe job urls bs f now st0).events = true := by
  simp only [scrapeServe_eq, scrapeLoopOf]
  apply scrapeBatchLoop_disciplined
  · exact chunks3_length_le _
  · simp
  · have hsum := scrapeBatchLoop_sum f now
      (chunks3 (currentBatchOf job urls bs))
      { st := st0, processed := job.processed_urls, failed := job.failed_urls }
    dsimp only at hsum
    split
    · simp only [batchDisciplined, Bool.and_eq_true, beq_iff_eq]
      refine ⟨?_, by simp [batchDisciplined]⟩
      omega
    · simp [batchDisciplined]

theorem scrapeServe_sum (job : ScrapeJobRow) (urls : List String)
    (bs : Nat) (f : String → Option (List Char)) (now : Nat) (st0 : ScrapeState) :
    (scrapeServe job urls bs f now st0).response.processed +
        (scrapeServe job urls bs f now st0).response.failed =
      job.processed_urls + job.failed_urls + (currentBatchOf job urls bs).length := by
  simp only [scrapeServe_eq, scrapeLoopOf]
  have hsum := scrapeBatchLoop_sum f now
    (chunks3 (currentBatchOf job urls bs))
    { st := st0, processed := job.processed_urls, failed := job.failed_urls }
  rw [chunks3_flatten] at hsum
  simp at hsum ⊢
  omega

theorem disciplined_bound :
    ∀ (ev : List ScrapeEvent) (start seen k p fl : Nat),
      batchDisciplined start seen k ev = true →
      (ScrapeEvent.checkpoint p fl ∈ ev ∨ ScrapeEvent.completeJob p fl ∈ ev) →
      p + fl ≤ start + seen + (ev.filterMap eventUrl).length := by
  intro ev
  induction ev with
  | nil =>
    intro start seen k p fl _ hmem
    rcases hmem with h | h <;> simp at h
  | cons e rest ih =>
    intro start seen k p fl hdis hmem
    cases e with
    | attempt u b =>
      simp only [batchDisciplined, Bool.and_eq_true, decide_eq_true_eq] at hdis
      have hmem2 : ScrapeEvent.checkpoint p fl ∈ rest ∨
          ScrapeEvent.completeJob p fl ∈ rest := by
        rcases hmem with h | h <;> simp at h <;> [exact Or.inl h; exact Or.inr h]
      have := ih start (seen + 1) (k + 1) p fl hdis.2 hmem2
      simp only [List.filterMap_cons, eventUrl, List.length_cons]
      omega
    | checkpoint q g =>
      simp only [batchDisciplined, Bool.and_eq_true, beq_iff_eq] at hdis
      simp only [List.filterMap_cons, eventUrl]
      rcases hmem with h | h
      · rcases List.mem_cons.mp h with h | h
        · have hpq : p = q ∧ fl = g := by
            injection h with h1 h2; exact ⟨h1, h2⟩
          omega
        · have := ih start seen 0 p fl hdis.2 (Or.inl h)
          omega
      · have hmem2 : ScrapeEvent.completeJob p fl ∈ rest := by simp at h; exact h
        have := ih start seen 0 p fl hdis.2 (Or.inr hmem2)
        omega
    | completeJob q g =>
      simp only [batchDisciplined, Bool.and_eq_true, beq_iff_eq] at hdis
      simp only [List.filterMap_cons, eventUrl]
      rcases hmem with h | h
      · have hmem2 : ScrapeEvent.checkpoint p fl ∈ rest := by simp at h; exact h
        have := ih start seen 0 p fl hdis.2 (Or.inl hmem2)
        omega
      · rcases List.mem_cons.mp h with h | h
        · have hpq : p = q ∧ fl = g := by
            injection h with h1 h2; exact ⟨h1, h2⟩
          omega
        · have := ih start seen 0 p fl hdis.2 (Or.inr h)
          omega
    | selfInvoke j =>
      simp only [batchDisciplined] at hdis
      have hmem2 : ScrapeEvent.checkpoint p fl ∈ rest ∨
          ScrapeEvent.completeJob p fl ∈ rest := by
        rcases hmem with h | h <;> simp at h <;> [exact Or.inl h; exact Or.inr h]
      have := ih start seen 0 p fl hdis hmem2
      simp only [List.filterMap_cons, eventUrl]
      omega

theorem currentBatchOf_length (job : ScrapeJobRow) (urls : List String) (bs : Nat) :
    (currentBatchOf job urls bs).length ≤ urls.length - job.processed_urls := by
  simp [currentBatchOf, List.length_take, List.length_drop]

/-! ## Claim C1 -/

/-- C1 counterexample: resuming the job whose row records one processed and
one failed URL over a three-URL discovery re-attempts the previously failed
URL (the slice restarts at the processed count alone), so the first
checkpoint write persists processed 3, failed 1, and 3 + 1 exceeds the
job's total of 3 URLs.  This refutes the claim that every checkpoint write
satisfies processed + failed at most total. -/
theorem scrape_resume_overcount_cex :
    ScrapeEvent.checkpoint 3 1 ∈
      (scrapeServe { id := 7, processed_urls := 1, failed_urls := 1 }
        ["u0", "u1", "u2"] 20 (fun _ => some ['x']) 0
        { db := [], freshId := 0 }).events ∧
    ¬ (3 + 1 ≤ (["u0", "u1", "u2"] : List String).length) := by
  constructor
  · decide
  · decide

/-- C1 (amended): after every persisted counter write of a scrape run whose
job row starts with processed at most the total, the persisted counts
satisfy processed + failed at most total plus the failed count the run
started from; the bound processed + failed at most total therefore holds
for every run that starts with zero recorded failures (in particular every
fresh job), but a resumed run re-attempts the URLs its predecessors counted
failed, which inflates the sum by exactly the inherited failed count. -/
theorem scrape_checkpoint_bound (job : ScrapeJobRow) (urls : List String)
    (bs : Nat) (f : String → Option (List Char)) (now : Nat) (st0 : ScrapeState)
    (h : job.processed_urls ≤ urls.length) :
    ∀ p fl,
      (ScrapeEvent.checkpoint p fl ∈ (scrapeServe job urls bs f now st0).events ∨
        ScrapeEvent.completeJob p fl ∈ (scrapeServe job urls bs f now st0).events) →
      p + fl ≤ urls.length + job.failed_urls := by
  intro p fl hmem
  have hd := scrapeServe_disciplined job urls bs f now st0
  have hb := disciplined_bound _ _ _ _ _ _ hd hmem
  rw [scrapeServe_filterMap] at hb
  have hlen := currentBatchOf_length job urls bs
  omega

/-- Witness for the amended C1 bound at the counterexample input: the
resumed job starts at processed 1 of 3 total with 1 inherited failure, and
the persisted checkpoint (3, 1) satisfies 3 + 1 at most 3 + 1. -/
theorem scrape_checkpoint_bound_witness :
    (1 : Nat) ≤ (["u0", "u1", "u2"] : List String).length ∧
      3 + 1 ≤ (["u0", "u1", "u2"] : List String).length + 1 :=
  ⟨by decide,
    scrape_checkpoint_bound { id := 7, processed_urls := 1, failed_urls := 1 }
      ["u0", "u1", "u2"] 20 (fun _ => some ['x']) 0 { db := [], freshId := 0 }
      (by decide) 3 1 (Or.inl (by decide))⟩

/-! ## Claim C9 -/

/-- C9: in every scrape invocation, each URL of the processed slice is
attempted exactly once in order (a single-URL failure does not stop the
batch), every URL contributes exactly one to processed or failed (the final
counters sum to the starting counters plus the slice length), and the event
trace is checkpoint-disciplined: at most three attempts happen between
persisted counter writes and every persisted write carries counters equal
to the starting counters plus the attempts made so far, so each sub-batch
is persisted before the next sub-batch begins. -/
theorem scrape_failures_and_checkpoints (job : ScrapeJobRow) (urls : List String)
    (bs : Nat) (f : String → Option (List Char)) (now : Nat) (st0 : ScrapeState) :
    (scrapeServe job urls bs f now st0).events.filterMap eventUrl =
        currentBatchOf job urls bs ∧
      batchDisciplined (job.processed_urls + job.failed_urls) 0 0
        (scrapeServe job urls bs f now st0).events = true ∧
      (scrapeServe job urls bs f now st0).response.processed +
          (scrapeServe job urls bs f now st0).response.failed =
        job.processed_urls + job.failed_urls + (currentBatchOf job urls bs).length :=
  ⟨scrapeServe_filterMap job urls bs f now st0,
    scrapeServe_disciplined job urls bs f now st0,
    scrapeServe_sum job urls bs f now st0⟩

/-! ## Claim C10 -/

/-- C10: a fetched page with no extractable title, or whose stripped text is
at most one hundred characters, makes scrapeAndStoreArticle return normally
with the article store unchanged (no row written), and the processing loop
therefore counts that URL as processed, not failed. -/
theorem scrape_skip_counts_processed (html : List Char) (url : String)
    (now : Nat) (st : ScrapeState) (fetchOf : String → Option (List Char))
    (ls : LoopState)
    (hf : fetchOf url = some html)
    (h : extractTitle html = none ∨ (strippedText html).length ≤ 100) :
    scrapeAndStoreArticle (some html) url now st = Except.ok st ∧
    processUrl fetchOf now ls url =
      ({ ls with processed := ls.processed + 1 }, ScrapeEvent.attempt url true) := by
  have hskip : (optFalsy (extractTitle html) || optFalsy (extractContent html)) = true := by
    rcases h with h | h
    · simp [h, optFalsy]
    · have hng : ¬ ((strippedText html).length > 100) := by omega
      have hc : extractContent html = none := by
        simp [extractContent, hng]
      simp [hc, optFalsy]
  constructor
  · simp [scrapeAndStoreArticle, hskip]
  · simp [processUrl, hf, scrapeAndStoreArticle, hskip]

/-- Witness for C10 at a concrete short page: the page has no title tag and
nine characters of markup, the store is left unchanged and the URL is
counted processed. -/
theorem scrape_skip_counts_processed_witness :
    (extractTitle pageShort = none ∨ (strippedText pageShort).length ≤ 100) ∧
      (scrapeAndStoreArticle (some pageShort) ("u") 0 { db := [], freshId := 0 } =
          Except.ok { db := [], freshId := 0 } ∧
        processUrl (fun _ => some pageShort) 0
            { st := { db := [], freshId := 0 }, processed := 0, failed := 0 } ("u") =
          ({ st := { db := [], freshId := 0 }, processed := 1, failed := 0 },
            ScrapeEvent.attempt ("u") true)) :=
  ⟨by decide,
    scrape_skip_counts_processed pageShort ("u") 0 { db := [], freshId := 0 }
      (fun _ => some pageShort)
      { st := { db := [], freshId := 0 }, processed := 0, failed := 0 }
      rfl (by decide)⟩

/-! ## Claim C8 -/

/-- C8: scraping the same URL twice is idempotent on url.  Starting from a
store with no row for the URL and fresh identifiers above every stored row,
a first successful scrape inserts exactly one row, and a second successful
scrape updates that row in place: the store keeps the same size (no
duplicate row), exactly one row carries the URL, and its content and
last_scraped_at are the second run's extracted content and timestamp. -/
theorem scrape_upsert_idempotent (html1 html2 : List Char) (url : String)
    (now1 now2 : Nat) (st0 : ScrapeState)
    (hbound : ∀ r ∈ st0.db, r.id < st0.freshId)
    (h0 : st0.db.filter (fun r => r.url == url) = [])
    (ht1 : optFalsy (extractTitle html1) = false)
    (hc1 : optFalsy (extractContent html1) = false)
    (ht2 : optFalsy (extractTitle html2) = false)
    (hc2 : optFalsy (extractContent html2) = false) :
    ∃ st1 st2 : ScrapeState,
      scrapeAndStoreArticle (some html1) url now1 st0 = Except.ok st1 ∧
      scrapeAndStoreArticle (some html2) url now2 st1 = Except.ok st2 ∧
      st1.db.length = st0.db.length + 1 ∧
      st2.db.length = st1.db.length ∧
      (st2.db.filter (fun r => r.url == url)).map
          (fun r => (r.content, r.last_scraped_at)) =
        [(some ((extractContent html2).getD []), now2)] := by
  have hfind0 : findByUrl st0.db url = none := by
    simp [findByUrl, h0]
  have e1 : scrapeAndStoreArticle (some html1) url now1 st0 =
      Except.ok
        { db := st0.db ++ [scrapedRow html1 url now1 st0.freshId],
          freshId := st0.freshId + 1 } := by
    simp [scrapeAndStoreArticle, ht1, hc1, upsertArticle, hfind0, scrapedRow]
  have hfilter1 : (st0.db ++ [scrapedRow html1 url now1 st0.freshId]).filter
      (fun r => r.url == url) = [scrapedRow html1 url now1 st0.freshId] := by
    rw [List.filter_append, h0]
    simp [scrapedRow]
  have hfind1 : findByUrl (st0.db ++ [scrapedRow html1 url now1 st0.freshId]) url =
      some (scrapedRow html1 url now1 st0.freshId) := by
    simp only [findByUrl, hfilter1]
  have hmap0 : st0.db.map (fun r =>
      if r.id == (scrapedRow html1 url now1 st0.freshId).id then
        { r with title := (extractTitle html2).getD [], url := url,
                 content := some ((extractContent html2).getD []),
                 category := (if optFalsy (extractCategory html2) then ("General".toList)
                   else (extractCategory html2).getD []),
                 last_scraped_at := now2 }
      else r) = st0.db := by
    conv_rhs => rw [← List.map_id st0.db]
    apply List.map_congr_left
    intro r hr
    have hb := hbound r hr
    have hid : (scrapedRow html1 url now1 st0.freshId).id = st0.freshId := rfl
    simp only [id, hid]
    rw [if_neg]
    simp
    omega
  have e2 : scrapeAndStoreArticle (some html2) url now2
      { db := st0.db ++ [scrapedRow html1 url now1 st0.freshId],
        freshId := st0.freshId + 1 } =
      Except.ok
        { db := st0.db ++ [scrapedRow html2 url now2 st0.freshId],
          freshId := st0.freshId + 1 } := by
    simp only [scrapeAndStoreArticle, ht2, hc2, Bool.or_self, Bool.false_eq_true,
      if_false, upsertArticle, hfind1]
    rw [List.map_append, hmap0]
    simp [scrapedRow]
  exact ⟨_, _, e1, e2, by simp, by simp,
    by rw [List.filter_append, h0]; simp [scrapedRow]⟩

/-- Witness for C8 at a concrete page: scraping the same URL twice with the
same long page leaves one row whose content is the page's stripped text and
whose scrape timestamp is the second run's. -/
theorem scrape_upsert_idempotent_witness :
    optFalsy (extractTitle pageLong) = false ∧
      (∃ st1 st2 : ScrapeState,
        scrapeAndStoreArticle (some pageLong) ("u") 1 { db := [], freshId := 0 } =
          Except.ok st1 ∧
        scrapeAndStoreArticle (some pageLong) ("u") 2 st1 = Except.ok st2 ∧
        st1.db.length = ([] : List ArticleRow).length + 1 ∧
        st2.db.length = st1.db.length ∧
        (st2.db.filter (fun r => r.url == ("u" : String))).map
            (fun r => (r.content, r.last_scraped_at)) =
          [(some ((extractContent pageLong).getD []), 2)]) :=
  ⟨by decide,
    scrape_upsert_idempotent pageLong pageLong ("u") 1 2 { db := [], freshId := 0 }
      (by simp) rfl (by decide) (by decide) (by decide) (by decide)⟩

/-! ## Helper lemmas about the schedule dates -/

theorem monthLen_pos (mi : Nat) : 0 < monthLen mi := by
  simp only [monthLen]
  split
  · split <;> omega
  · split <;> omega

theorem addPeriod_toMs_lt (freq : Freq) (d : JsDate) :
    d.toMs < (addPeriod freq d).toMs := by
  have hm := monthLen_pos d.monthIdx
  cases freq <;>
    simp only [addPeriod, JsDate.toMs, JsDate.toDays, daysBeforeMonth, msPerDay] <;>
    omega

theorem advanceNextRun_gt (freq : Freq) (now : JsDate) :
    ∀ fuel d, now.toMs + 1 - d.toMs ≤ fuel →
      now.toMs < (advanceNextRun freq now d).toMs := by
  intro fuel
  induction fuel with
  | zero =>
    intro d hd
    rw [advanceNextRun]
    have : ¬ d.toMs ≤ now.toMs := by omega
    simp only [this, dite_false]
    omega
  | succ n ih =>
    intro d hd
    rw [advanceNextRun]
    split
    · apply ih
      have := addPeriod_toMs_lt freq d
      omega
    · omega

theorem computeNextRun_gt (activeSchedule : Option ScheduleRow) (now : JsDate) :
    now.toMs < (computeNextRun activeSchedule now).toMs := by
  apply advanceNextRun_gt _ _ (now.toMs + 1)
  omega

/-! ## Helper lemmas about the vectorize processing loop -/

theorem vecChunk_append (embedOk qdrantOk dbUpdateOk : Nat → Bool) (now : Nat) :
    ∀ (l1 l2 : List ArticleRow) (vs : VecState),
      vecProcessChunk embedOk qdrantOk dbUpdateOk now vs (l1 ++ l2) =
        ((vecProcessChunk embedOk qdrantOk dbUpdateOk now
            (vecProcessChunk embedOk qdrantOk dbUpdateOk now vs l1).1 l2).1,
          (vecProcessChunk embedOk qdrantOk dbUpdateOk now vs l1).2 ++
            (vecProcessChunk embedOk qdrantOk dbUpdateOk now
              (vecProcessChunk embedOk qdrantOk dbUpdateOk now vs l1).1 l2).2) := by
  intro l1
  induction l1 with
  | nil => intro l2 vs; simp [vecProcessChunk]
  | cons a as ih =>
    intro l2 vs
    simp only [List.cons_append, vecProcessChunk, List.append_eq, ih, List.append_assoc]

theorem vecLoop_flatten (embedOk qdrantOk dbUpdateOk : Nat → Bool) (now : Nat) :
    ∀ (cs : List (List ArticleRow)) (vs : VecState),
      vecLoop embedOk qdrantOk dbUpdateOk now vs cs =
        vecProcessChunk embedOk qdrantOk dbUpdateOk now vs cs.flatten := by
  intro cs
  induction cs with
  | nil => intro vs; simp [vecLoop, vecProcessChunk]
  | cons c cs ih =>
    intro vs
    simp only [vecLoop, List.flatten_cons, ih, vecChunk_append]

theorem vecChunk_events_shape (embedOk qdrantOk dbUpdateOk : Nat → Bool) (now : Nat) :
    ∀ (sel : List ArticleRow) (vs : VecState),
      ∀ e ∈ (vecProcessChunk embedOk qdrantOk dbUpdateOk now vs sel).2,
        (∃ i, e = VecEvent.upsertPoint i) ∨ (∃ i, e = VecEvent.updateArticle i) := by
  intro sel
  induction sel with
  | nil => intro vs e he; simp [vecProcessChunk] at he
  | cons a as ih =>
    intro vs e he
    simp only [vecProcessChunk, List.mem_append] at he
    rcases he with he | he
    · by_cases h1 : embedOk a.id <;> by_cases h2 : qdrantOk a.id <;>
        simp [vecProcessArticle, h1, h2] at he
      · rcases he with he | he
        · exact Or.inl ⟨a.id, he⟩
        · exact Or.inr ⟨a.id, he⟩
      · exact Or.inl ⟨a.id, he⟩
    · exact ih _ e he

theorem vecChunk_counts (embedOk qdrantOk dbUpdateOk : Nat → Bool) (now : Nat) :
    ∀ (sel : List ArticleRow) (vs : VecState),
      (vecProcessChunk embedOk qdrantOk dbUpdateOk now vs sel).1.processed =
          vs.processed + sel.countP (fun a => embedOk a.id && qdrantOk a.id) ∧
        (vecProcessChunk embedOk qdrantOk dbUpdateOk now vs sel).1.failed =
          vs.failed + sel.countP (fun a => !(embedOk a.id && qdrantOk a.id)) := by
  intro sel
  induction sel with
  | nil => intro vs; simp [vecProcessChunk]
  | cons a as ih =>
    intro vs
    by_cases h1 : embedOk a.id <;> by_cases h2 : qdrantOk a.id <;>
      simp only [vecProcessChunk, vecProcessArticle, h1, h2, if_true, if_false,
        List.countP_cons] <;>
      rcases ih (vecProcessArticle embedOk qdrantOk dbUpdateOk now vs a).1 with ⟨ihp, ihf⟩ <;>
      simp [vecProcessArticle, h1, h2] at ihp ihf ⊢ <;> omega

theorem find?_id_of_nodup :
    ∀ (db : List ArticleRow), (db.map (fun r => r.id)).Nodup →
      ∀ a ∈ db, db.find? (fun r => r.id == a.id) = some a := by
  intro db
  induction db with
  | nil => simp
  | cons r rest ih =>
    intro hnd a ha
    simp only [List.map_cons, List.nodup_cons] at hnd
    rcases List.mem_cons.mp ha with h | h
    · subst h
      simp [List.find?_cons]
    · have hne : (r.id == a.id) = false := by
        simp only [beq_eq_false_iff_ne, ne_eq]
        intro he
        exact hnd.1 (he ▸ List.mem_map_of_mem (fun r => r.id) h)
      rw [List.find?_cons, hne]
      exact ih hnd.2 a h

theorem find?_map_id_preserve :
    ∀ (db : List ArticleRow) (f : ArticleRow → ArticleRow) (x : Nat),
      (∀ r, (f r).id = r.id) →
      (db.map f).find? (fun r => r.id == x) =
        (db.find? (fun r => r.id == x)).map f := by
  intro db f x hid
  induction db with
  | nil => simp
  | cons r rest ih =>
    simp only [List.map_cons, List.find?_cons, hid r]
    cases hrx : (r.id == x) <;> simp [ih]

theorem vecArticle_frame (embedOk qdrantOk dbUpdateOk : Nat → Bool) (now : Nat)
    (vs : VecState) (a0 : ArticleRow) (x : Nat) (hx : a0.id ≠ x) :
    (vecProcessArticle embedOk qdrantOk dbUpdateOk now vs a0).1.db.find?
        (fun r => r.id == x) =
      vs.db.find? (fun r => r.id == x) := by
  by_cases h1 : embedOk a0.id <;> by_cases h2 : qdrantOk a0.id <;>
    by_cases h3 : dbUpdateOk a0.id <;>
    simp only [vecProcessArticle, h1, h2, h3, if_true, if_false, Bool.false_eq_true]
  case pos =>
    rw [find?_map_id_preserve _ _ _ (by intro r; split <;> rfl)]
    cases hf : vs.db.find? (fun r => r.id == x) with
    | none => simp
    | some r =>
      have hr := List.find?_some hf
      have hrne : (r.id == a0.id) = false := by
        simp only [beq_eq_false_iff_ne, ne_eq]
        intro he
        exact hx (by simp at hr; omega)
      have hcond : ¬ ((r.id == a0.id) = true) := by simp [hrne]
      simp [hcond]
      intro he
      exact absurd he (by simpa using hrne)

theorem vecChunk_frame (embedOk qdrantOk dbUpdateOk : Nat → Bool) (now : Nat) :
    ∀ (sel : List ArticleRow) (vs : VecState) (x : Nat),
      (∀ a ∈ sel, a.id ≠ x) →
      (vecProcessChunk embedOk qdrantOk dbUpdateOk now vs sel).1.db.find?
          (fun r => r.id == x) =
        vs.db.find? (fun r => r.id == x) := by
  intro sel
  induction sel with
  | nil => intro vs x _; simp [vecProcessChunk]
  | cons a0 as ih =>
    intro vs x hne
    simp only [vecProcessChunk]
    rw [ih _ x (fun a ha => hne a (List.mem_cons_of_mem _ ha))]
    exact vecArticle_frame embedOk qdrantOk dbUpdateOk now vs a0 x
      (hne a0 (List.mem_cons_self _ _))

theorem vecArticle_self (embedOk qdrantOk dbUpdateOk : Nat → Bool) (now : Nat)
    (vs : VecState) (a0 : ArticleRow)
    (h1 : embedOk a0.id = true) (h2 : qdrantOk a0.id = true)
    (h3 : dbUpdateOk a0.id = true)
    (hfind : vs.db.find? (fun r => r.id == a0.id) = some a0) :
    (vecProcessArticle embedOk qdrantOk dbUpdateOk now vs a0).1.db.find?
        (fun r => r.id == a0.id) =
      some { a0 with vector_id := some a0.id, last_indexed_at := some now } := by
  simp only [vecProcessArticle, h1, h2, h3, if_true]
  rw [find?_map_id_preserve _ _ _ (by intro r; split <;> rfl)]
  rw [hfind]
  simp

theorem vecChunk_dichotomy (embedOk qdrantOk dbUpdateOk : Nat → Bool) (now : Nat) :
    ∀ (sel : List ArticleRow) (vs : VecState),
      (∀ a ∈ sel, dbUpdateOk a.id = true) →
      ((sel.map (fun a => a.id)).Nodup) →
      (∀ a ∈ sel, vs.db.find? (fun r => r.id == a.id) = some a) →
      ∀ a ∈ sel,
        (embedOk a.id = true ∧ qdrantOk a.id = true ∧
          (vecProcessChunk embedOk qdrantOk dbUpdateOk now vs sel).1.db.find?
              (fun r => r.id == a.id) =
            some { a with vector_id := some a.id, last_indexed_at := some now }) ∨
        ((embedOk a.id = false ∨ qdrantOk a.id = false) ∧
          (vecProcessChunk embedOk qdrantOk dbUpdateOk now vs sel).1.db.find?
              (fun r => r.id == a.id) = some a) := by
  intro sel
  induction sel with
  | nil => simp
  | cons a0 as ih =>
    intro vs hdb hnd hfind a ha
    simp only [List.map_cons, List.nodup_cons] at hnd
    rcases List.mem_cons.mp ha with rfl | hmem
    · have hne : ∀ b ∈ as, b.id ≠ a.id := by
        intro b hb he
        exact hnd.1 (he ▸ List.mem_map_of_mem (fun r => r.id) hb)
      have hframe := vecChunk_frame embedOk qdrantOk dbUpdateOk now as
        (vecProcessArticle embedOk qdrantOk dbUpdateOk now vs a).1 a.id hne
      simp only [vecProcessChunk]
      rw [hframe]
      by_cases h1 : embedOk a.id
      · by_cases h2 : qdrantOk a.id
        · left
          exact ⟨h1, h2, vecArticle_self embedOk qdrantOk dbUpdateOk now vs a h1 h2
            (hdb a (List.mem_cons_self _ _)) (hfind a (List.mem_cons_self _ _))⟩
        · right
          refine ⟨Or.inr (by simpa using h2), ?_⟩
          simp only [vecProcessArticle, h1, if_true]
          simp only [Bool.not_eq_true] at h2
          simp only [h2, Bool.false_eq_true, if_false]
          exact hfind a (List.mem_cons_self _ _)
      · right
        refine ⟨Or.inl (by simpa using h1), ?_⟩
        simp only [Bool.not_eq_true] at h1
        simp only [vecProcessArticle, h1, Bool.false_eq_true, if_false]
        exact hfind a (List.mem_cons_self _ _)
    · have ha0ne : a0.id ≠ a.id := by
        intro he
        exact hnd.1 (he ▸ List.mem_map_of_mem (fun r => r.id) hmem)
      simp only [vecProcessChunk]
      apply ih _ (fun b hb => hdb b (List.mem_cons_of_mem _ hb)) hnd.2 ?_ a hmem
      intro b hb
      rw [vecArticle_frame embedOk qdrantOk dbUpdateOk now vs a0 b.id ?_]
      · exact hfind b (List.mem_cons_of_mem _ hb)
      · intro he
        exact hnd.1 (he ▸ List.mem_map_of_mem (fun r => r.id) hb)

theorem selected_mem_db (db : List ArticleRow) (bs : Nat) :
    ∀ a ∈ selectedArticles db bs, a ∈ db := by
  intro a ha
  have h1 : a ∈ db.filter eligible := List.mem_of_mem_take ha
  exact List.mem_of_mem_filter h1

theorem selected_vector_id_none (db : List ArticleRow) (bs : Nat) :
    ∀ a ∈ selectedArticles db bs, a.vector_id = none := by
  intro a ha
  have h1 : a ∈ db.filter eligible := List.mem_of_mem_take ha
  have h2 := List.of_mem_filter h1
  simp only [eligible, Bool.and_eq_true, Option.isNone_iff_eq_none] at h2
  exact h2.1

theorem selected_nodup (db : List ArticleRow) (bs : Nat)
    (hnodup : (db.map (fun r => r.id)).Nodup) :
    ((selectedArticles db bs).map (fun a => a.id)).Nodup := by
  have hsub : List.Sublist (selectedArticles db bs) db :=
    (List.take_sublist _ _).trans (List.filter_sublist _)
  exact List.Nodup.sublist (hsub.map (fun a => a.id)) hnodup

/-! ## Claim C2 -/

/-- C2 counterexample: with embedding and vector upsert succeeding but the
kb_articles row update failing, the run counts the only selected article as
processed (processed 1, failed 0) while the stored row keeps a null
vector_id, because the update's error object is never inspected.  This
refutes the claim that a selected article counted in processed always ends
with vector_id and last_indexed_at set. -/
theorem vectorize_unchecked_update_cex :
    (vectorizeServe [artA] 50 false ["knowledge_base"] true (fun _ => true)
        (fun _ => true) (fun _ => false) none 99
        { monthIdx := 0, day := 0, tod := 0 }).response.processed = 1 ∧
      (vectorizeServe [artA] 50 false ["knowledge_base"] true (fun _ => true)
        (fun _ => true) (fun _ => false) none 99
        { monthIdx := 0, day := 0, tod := 0 }).response.failed = some 0 ∧
      (vectorizeServe [artA] 50 false ["knowledge_base"] true (fun _ => true)
        (fun _ => true) (fun _ => false) none 99
        { monthIdx := 0, day := 0, tod := 0 }).db = [artA] ∧
      artA.vector_id = none :=
  ⟨rfl, rfl, rfl, rfl⟩

/-- C2 (amended): provided the kb_articles row update succeeds for each
selected article, every article selected by a vectorize run (null vector
reference, non-null content) ends the run in one of exactly two states:
embedding and vector upsert both succeeded, the article is counted in
processed and its row carries vector_id and last_indexed_at; or one of the
two external calls failed, the article is counted in failed and its row is
unchanged with vector_id still unset.  Without that proviso the
counterexample run shows an article counted processed with vector_id
unset. -/
theorem vectorize_per_article (db : List ArticleRow) (batchSize : Nat)
    (autoScheduled : Bool) (collections : List String) (collectionsFetchOk : Bool)
    (embedOk qdrantOk dbUpdateOk : Nat → Bool) (activeSchedule : Option ScheduleRow)
    (now : Nat) (nowDate : JsDate)
    (hnodup : (db.map (fun r => r.id)).Nodup)
    (hdbok : ∀ a ∈ selectedArticles db batchSize, dbUpdateOk a.id = true) :
    (∀ a ∈ selectedArticles db batchSize,
      (embedOk a.id = true ∧ qdrantOk a.id = true ∧
        (vectorizeServe db batchSize autoScheduled collections collectionsFetchOk
            embedOk qdrantOk dbUpdateOk activeSchedule now nowDate).db.find?
            (fun r => r.id == a.id) =
          some { a with vector_id := some a.id, last_indexed_at := some now }) ∨
      ((embedOk a.id = false ∨ qdrantOk a.id = false) ∧ a.vector_id = none ∧
        (vectorizeServe db batchSize autoScheduled collections collectionsFetchOk
            embedOk qdrantOk dbUpdateOk activeSchedule now nowDate).db.find?
            (fun r => r.id == a.id) = some a)) ∧
    (vectorizeServe db batchSize autoScheduled collections collectionsFetchOk
        embedOk qdrantOk dbUpdateOk activeSchedule now nowDate).response.processed =
      (selectedArticles db batchSize).countP (fun a => embedOk a.id && qdrantOk a.id) ∧
    ((vectorizeServe db batchSize autoScheduled collections collectionsFetchOk
        embedOk qdrantOk dbUpdateOk activeSchedule now nowDate).response.failed).getD 0 =
      (selectedArticles db batchSize).countP (fun a => !(embedOk a.id && qdrantOk a.id)) := by
  by_cases hemp : (selectedArticles db batchSize).isEmpty = true
  · have hsel : selectedArticles db batchSize = [] := by
      simpa using hemp
    refine ⟨by simp [hsel], ?_, ?_⟩ <;>
      simp only [vectorizeServe, hemp, if_true, hsel, List.countP_nil] <;> rfl
  · have hdich := vecChunk_dichotomy embedOk qdrantOk dbUpdateOk now
      (selectedArticles db batchSize) { db := db, processed := 0, failed := 0 }
      hdbok (selected_nodup db batchSize hnodup)
      (fun a ha => find?_id_of_nodup db hnodup a (selected_mem_db db batchSize a ha))
    have hcnt := vecChunk_counts embedOk qdrantOk dbUpdateOk now
      (selectedArticles db batchSize) { db := db, processed := 0, failed := 0 }
    refine ⟨?_, ?_, ?_⟩
    · intro a ha
      have h := hdich a ha
      simp only [vectorizeServe, hemp, if_false, Bool.false_eq_true]
      rw [vecLoop_flatten, chunks3_flatten]
      rcases h with ⟨h1, h2, h3⟩ | ⟨h12, h3⟩
      · exact Or.inl ⟨h1, h2, h3⟩
      · exact Or.inr ⟨h12, selected_vector_id_none db batchSize a ha, h3⟩
    · simp only [vectorizeServe, hemp, if_false, Bool.false_eq_true]
      rw [vecLoop_flatten, chunks3_flatten]
      simpa using hcnt.1
    · simp only [vectorizeServe, hemp, if_false, Bool.false_eq_true]
      rw [vecLoop_flatten, chunks3_flatten]
      simpa using hcnt.2

/-- Witness for the amended C2 at a one-article store whose row update
succeeds: the article is counted processed and its row ends with vector_id
and last_indexed_at set. -/
theorem vectorize_per_article_witness :
    ((([artA] : List ArticleRow).map (fun r => r.id)).Nodup) ∧
      (∀ a ∈ selectedArticles [artA] 50,
        (true = true ∧ true = true ∧
          (vectorizeServe [artA] 50 false ["knowledge_base"] true (fun _ => true)
              (fun _ => true) (fun _ => true) none 99
              { monthIdx := 0, day := 0, tod := 0 }).db.find?
              (fun r => r.id == a.id) =
            some { a with vector_id := some a.id, last_indexed_at := some 99 }) ∨
        ((true = false ∨ true = false) ∧ a.vector_id = none ∧
          (vectorizeServe [artA] 50 false ["knowledge_base"] true (fun _ => true)
              (fun _ => true) (fun _ => true) none 99
              { monthIdx := 0, day := 0, tod := 0 }).db.find?
              (fun r => r.id == a.id) = some a)) :=
  ⟨by decide,
    (vectorize_per_article [artA] 50 false ["knowledge_base"] true (fun _ => true)
      (fun _ => true) (fun _ => true) none 99 { monthIdx := 0, day := 0, tod := 0 }
      (by decide) (fun a _ => rfl)).1⟩

/-! ## Claim C3 -/

/-- C3 counterexample: with an empty backlog and the knowledge_base
collection absent from the vector store, the handler creates the collection
(a write to the vector store) before the backlog check, and the early
return carries no isComplete field at all.  This refutes the claim that the
response has isComplete true and that no store receives a write. -/
theorem vectorize_empty_backlog_cex :
    (vectorizeServe [] 50 false [] true (fun _ => true) (fun _ => true)
        (fun _ => true) none 0 { monthIdx := 0, day := 0, tod := 0 }).response.processed = 0 ∧
      (vectorizeServe [] 50 false [] true (fun _ => true) (fun _ => true)
        (fun _ => true) none 0 { monthIdx := 0, day := 0, tod := 0 }).response.remaining = 0 ∧
      (vectorizeServe [] 50 false [] true (fun _ => true) (fun _ => true)
        (fun _ => true) none 0 { monthIdx := 0, day := 0, tod := 0 }).response.isComplete = none ∧
      (vectorizeServe [] 50 false [] true (fun _ => true) (fun _ => true)
        (fun _ => true) none 0 { monthIdx := 0, day := 0, tod := 0 }).events =
        [VecEvent.createCollection] :=
  ⟨rfl, rfl, rfl, rfl⟩

/-- C3 (amended): when no article is eligible for vectorization, the run
returns processed 0 and remaining 0, leaves the article store untouched and
performs no write at all to the article, schedule or points stores; the
response carries no isComplete field (rather than isComplete true), and the
only possible store write is the creation of the missing vector collection,
which happens before the backlog check. -/
theorem vectorize_empty_backlog (db : List ArticleRow) (batchSize : Nat)
    (autoScheduled : Bool) (collections : List String) (collectionsFetchOk : Bool)
    (embedOk qdrantOk dbUpdateOk : Nat → Bool) (activeSchedule : Option ScheduleRow)
    (now : Nat) (nowDate : JsDate)
    (hempty : db.filter eligible = []) :
    (vectorizeServe db batchSize autoScheduled collections collectionsFetchOk
        embedOk qdrantOk dbUpdateOk activeSchedule now nowDate).response.processed = 0 ∧
    (vectorizeServe db batchSize autoScheduled collections collectionsFetchOk
        embedOk qdrantOk dbUpdateOk activeSchedule now nowDate).response.remaining = 0 ∧
    (vectorizeServe db batchSize autoScheduled collections collectionsFetchOk
        embedOk qdrantOk dbUpdateOk activeSchedule now nowDate).response.isComplete = none ∧
    (vectorizeServe db batchSize autoScheduled collections collectionsFetchOk
        embedOk qdrantOk dbUpdateOk activeSchedule now nowDate).db = db ∧
    (∀ e ∈ (vectorizeServe db batchSize autoScheduled collections collectionsFetchOk
        embedOk qdrantOk dbUpdateOk activeSchedule now nowDate).events,
      e = VecEvent.createCollection) := by
  have hsel : selectedArticles db batchSize = [] := by
    simp [selectedArticles, hempty]
  have hemp : (selectedArticles db batchSize).isEmpty = true := by
    simp [hsel]
  simp only [vectorizeServe, hemp, if_true]
  refine ⟨trivial, trivial, trivial, trivial, ?_⟩
  intro e he
  split at he
  · simp at he; exact he
  · simp at he

/-- Witness for the amended C3 at a store whose single article is already
vectorized: the run reports zero processed and remaining, no isComplete
field, and writes nothing anywhere. -/
theorem vectorize_empty_backlog_witness :
    (([{ artA with vector_id := some 5 }] : List ArticleRow).filter eligible = []) ∧
      (vectorizeServe [{ artA with vector_id := some 5 }] 50 false
        ["knowledge_base"] true (fun _ => true) (fun _ => true) (fun _ => true)
        none 0 { monthIdx := 0, day := 0, tod := 0 }).response.processed = 0 ∧
      (vectorizeServe [{ artA with vector_id := some 5 }] 50 false
        ["knowledge_base"] true (fun _ => true) (fun _ => true) (fun _ => true)
        none 0 { monthIdx := 0, day := 0, tod := 0 }).response.isComplete = none :=
  ⟨by decide,
    (vectorize_empty_backlog [{ artA with vector_id := some 5 }] 50 false
      ["knowledge_base"] true (fun _ => true) (fun _ => true) (fun _ => true)
      none 0 { monthIdx := 0, day := 0, tod := 0 } (by decide)).1,
    (vectorize_empty_backlog [{ artA with vector_id := some 5 }] 50 false
      ["knowledge_base"] true (fun _ => true) (fun _ => true) (fun _ => true)
      none 0 { monthIdx := 0, day := 0, tod := 0 } (by decide)).2.2.1⟩

/-! ## Claim C5 -/

/-- C5: every vectorization_schedules row update performed by an
auto-scheduled vectorize run writes a next_run_at strictly later than the
run's current instant: the value is computed by advancing the stored
next_run_at (or two in the morning of today when none is stored) by the
schedule's period, daily, weekly or monthly according to the schedule name,
until it exceeds now; and the advancing loop terminates and lands strictly
after now from every starting value. -/
theorem vectorize_schedule_future (db : List ArticleRow) (batchSize : Nat)
    (collections : List String) (collectionsFetchOk : Bool)
    (embedOk qdrantOk dbUpdateOk : Nat → Bool) (activeSchedule : Option ScheduleRow)
    (now : Nat) (nowDate : JsDate) (autoScheduled : Bool) :
    (∀ u, VecEvent.updateSchedule u ∈
        (vectorizeServe db batchSize autoScheduled collections collectionsFetchOk
          embedOk qdrantOk dbUpdateOk activeSchedule now nowDate).events →
      nowDate.toMs < u.next_run_at.toMs) ∧
    (∀ freq d0, nowDate.toMs < (advanceNextRun freq nowDate d0).toMs) := by
  constructor
  · intro u hmem
    by_cases hemp : (selectedArticles db batchSize).isEmpty = true
    · exfalso
      simp only [vectorizeServe, hemp, if_true] at hmem
      split at hmem <;> simp at hmem
    · simp only [vectorizeServe, hemp, if_false, Bool.false_eq_true,
        List.mem_append] at hmem
      rcases hmem with ((hmem | hmem) | hmem) | hmem
      · exfalso; split at hmem <;> simp at hmem
      · exfalso
        rw [vecLoop_flatten] at hmem
        rcases vecChunk_events_shape embedOk qdrantOk dbUpdateOk now _ _ _ hmem with
          ⟨i, hi⟩ | ⟨i, hi⟩ <;> simp at hi
      · split at hmem
        · simp only [List.mem_singleton] at hmem
          injection hmem with hu
          rw [hu]
          exact computeNextRun_gt activeSchedule nowDate
        · simp at hmem
      · exfalso; split at hmem <;> simp at hmem
  · intro freq d0
    apply advanceNextRun_gt _ _ (nowDate.toMs + 1)
    omega

/-- Witness for C5 at a concrete auto-scheduled run over one eligible
article and a daily schedule whose stored next_run_at lies in the past: the
schedule update written by the run carries a next_run_at strictly after the
run's instant. -/
theorem vectorize_schedule_future_witness :
    VecEvent.updateSchedule
        { scheduleId := some 1, last_run_at := dNow, articles_processed := 1,
          articles_failed := 0, statusRunning := false,
          next_run_at := computeNextRun (some schedA) dNow } ∈
      (vectorizeServe [artA] 50 true ["knowledge_base"] true (fun _ => true)
        (fun _ => true) (fun _ => true) (some schedA) 9 dNow).events ∧
    dNow.toMs <
      (computeNextRun (some schedA) dNow).toMs := by
  have hev : (vectorizeServe [artA] 50 true ["knowledge_base"] true (fun _ => true)
      (fun _ => true) (fun _ => true) (some schedA) 9 dNow).events =
      [VecEvent.upsertPoint 5, VecEvent.updateArticle 5,
        VecEvent.updateSchedule
          { scheduleId := some 1, last_run_at := dNow, articles_processed := 1,
            articles_failed := 0, statusRunning := false,
            next_run_at := computeNextRun (some schedA) dNow }] := rfl
  constructor
  · rw [hev]
    simp
  · exact ((vectorize_schedule_future [artA] 50 ["knowledge_base"] true
      (fun _ => true) (fun _ => true) (fun _ => true) (some schedA) 9 dNow true).1
      { scheduleId := some 1, last_run_at := dNow, articles_processed := 1,
        articles_failed := 0, statusRunning := false,
        next_run_at := computeNextRun (some schedA) dNow }
      (by rw [hev]; simp))

/-! ## Helper lemma about the search handler -/

theorem searchServe_ok (body : SearchBody) (embed : List Char → Option (List ℚ))
    (store : QdrantSearchReq → Option (List QdrantHit))
    (q : List Char) (results : List SearchResultItem) (total : Nat)
    (ev : List SearchEvent)
    (hrun : searchServe body embed store = (SearchOutcome.ok q results total, ev)) :
    ∃ emb hits,
      embed ((body.query.getD []).take 8000) = some emb ∧
      store { vector := emb, limit := body.limit.getD 5, with_payload := true,
              score_threshold := mkRat 7 10 } = some hits ∧
      results = hits.map formatResult ∧
      ev = [SearchEvent.embedCall ((body.query.getD []).take 8000),
        SearchEvent.qdrantSearch
          { vector := emb, limit := body.limit.getD 5, with_payload := true,
            score_threshold := mkRat 7 10 }] := by
  by_cases hq : optFalsy body.query = true
  · exfalso
    simp [searchServe, hq] at hrun
  · simp only [Bool.not_eq_true] at hq
    simp only [searchServe, hq, Bool.false_eq_true, if_false] at hrun
    rcases hembed : embed ((body.query.getD []).take 8000) with _ | emb <;>
      rw [hembed] at hrun
    · simp at hrun
    · dsimp only at hrun
      rcases hstore : store
          { vector := emb, limit := body.limit.getD 5,
            with_payload := true, score_threshold := mkRat 7 10 } with _ | hits <;>
        rw [hstore] at hrun
      · simp at hrun
      · dsimp only at hrun
        simp only [Prod.mk.injEq, SearchOutcome.ok.injEq] at hrun
        obtain ⟨⟨hq2, hres, htot⟩, hev⟩ := hrun
        exact ⟨emb, hits, by simp [hembed], by simp [hstore], hres.symm, hev.symm⟩

/-! ## Claim C4 -/

/-- C4 counterexample: a successful search run returns result objects whose
fields are id, title, url, content_preview and similarity_score only; the
claimed field list with category, created_at and updated_at does not match,
and indeed no category or timestamps are stored in the point payload at
all.  This refutes the claim that every returned result carries exactly the
eight claimed fields. -/
theorem search_result_fields_cex :
    ((formatResult hitA).jsonFields.map Prod.fst ≠
      ["id", "title", "url", "category", "content_preview", "similarity_score",
        "created_at", "updated_at"]) ∧
    (searchServe { query := some ['x'], limit := none } (fun _ => some [1])
        (fun _ => some [hitA])).1 =
      SearchOutcome.ok ['x'] [formatResult hitA] 1 := by
  constructor
  · decide
  · rfl

/-- C4 (amended): for every successful search request, each returned result
object carries exactly the fields id, title, url, content_preview and
similarity_score, in that order, and each result is the image of one hit of
the issued store search: id and similarity_score from the hit itself, and
title, url and content_preview from the hit's stored payload (the preview
being the first two hundred characters of the payload content followed by
an ellipsis).  No category, created_at or updated_at fields are present. -/
theorem search_result_shape (body : SearchBody)
    (embed : List Char → Option (List ℚ))
    (store : QdrantSearchReq → Option (List QdrantHit))
    (q : List Char) (results : List SearchResultItem) (total : Nat)
    (ev : List SearchEvent)
    (hrun : searchServe body embed store = (SearchOutcome.ok q results total, ev)) :
    ∀ r ∈ results,
      (r.jsonFields.map Prod.fst =
        ["id", "title", "url", "content_preview", "similarity_score"]) ∧
      ∃ hit, (∃ req hits, SearchEvent.qdrantSearch req ∈ ev ∧
          store req = some hits ∧ hit ∈ hits) ∧ r = formatResult hit := by
  obtain ⟨emb, hits, hembed, hstore, hres, hev⟩ :=
    searchServe_ok body embed store q results total ev hrun
  intro r hr
  rw [hres] at hr
  obtain ⟨hit, hhit, rfl⟩ := List.mem_map.mp hr
  refine ⟨rfl, hit, ⟨_, hits, ?_, hstore, hhit⟩, rfl⟩
  rw [hev]
  simp

/-- Witness for the amended C4 at a one-hit store: the single result's
field names are the five actually produced and it is the image of the
stored hit. -/
theorem search_result_shape_witness :
    (searchServe { query := some ['x'], limit := none } (fun _ => some [1])
        (fun _ => some [hitA]) =
      (SearchOutcome.ok ['x'] [formatResult hitA] 1,
        [SearchEvent.embedCall ['x'],
          SearchEvent.qdrantSearch
            { vector := [1], limit := 5, with_payload := true,
              score_threshold := mkRat 7 10 }])) ∧
    ((formatResult hitA).jsonFields.map Prod.fst =
      ["id", "title", "url", "content_preview", "similarity_score"]) :=
  ⟨rfl,
    (search_result_shape { query := some ['x'], limit := none } (fun _ => some [1])
      (fun _ => some [hitA]) ['x'] [formatResult hitA] 1
      [SearchEvent.embedCall ['x'],
        SearchEvent.qdrantSearch
          { vector := [1], limit := 5, with_payload := true,
            score_threshold := mkRat 7 10 }]
      rfl (formatResult hitA) (by simp)).1⟩

/-! ## Claim C6 -/

/-- C6: a search request with an absent or empty query string is answered
with status 400 before any outbound call: no embedding call and no vector
store call is made. -/
theorem search_empty_query (body : SearchBody)
    (embed : List Char → Option (List ℚ))
    (store : QdrantSearchReq → Option (List QdrantHit))
    (h : body.query = none ∨ body.query = some []) :
    searchServe body embed store =
      (SearchOutcome.clientError 400 ("Query is required"), []) := by
  have hq : optFalsy body.query = true := by
    rcases h with h | h <;> simp [h, optFalsy]
  simp [searchServe, hq]

/-- Witness for C6 at a request with no query field: the handler answers
400 and the event list is empty. -/
theorem search_empty_query_witness :
    ((none : Option (List Char)) = none ∨ (none : Option (List Char)) = some []) ∧
      searchServe { query := none, limit := none } (fun _ => some [])
          (fun _ => some []) =
        (SearchOutcome.clientError 400 ("Query is required"), []) :=
  ⟨Or.inl rfl,
    search_empty_query { query := none, limit := none } (fun _ => some [])
      (fun _ => some []) (Or.inl rfl)⟩

/-! ## Claim C7 -/

/-- C7: the points search issued by the handler carries score_threshold
seven tenths, and whenever the store honours its contract (every returned
hit scores at least the request's threshold, hits ordered by non-increasing
score), every returned result has similarity_score at least seven tenths
and the result list is ordered by non-increasing similarity_score. -/
theorem search_threshold_sorted (body : SearchBody)
    (embed : List Char → Option (List ℚ))
    (store : QdrantSearchReq → Option (List QdrantHit))
    (q : List Char) (results : List SearchResultItem) (total : Nat)
    (ev : List SearchEvent)
    (hrun : searchServe body embed store = (SearchOutcome.ok q results total, ev))
    (hstore : ∀ req hits, store req = some hits →
      (∀ hit ∈ hits, req.score_threshold ≤ hit.score) ∧
        List.Pairwise (fun a b => b.score ≤ a.score) hits) :
    (∀ r ∈ results, mkRat 7 10 ≤ r.similarity_score) ∧
    List.Pairwise (fun a b => b.similarity_score ≤ a.similarity_score) results ∧
    (∃ req, SearchEvent.qdrantSearch req ∈ ev ∧ req.score_threshold = mkRat 7 10) := by
  obtain ⟨emb, hits, hembed, hstore2, hres, hev⟩ :=
    searchServe_ok body embed store q results total ev hrun
  obtain ⟨hthresh, hsorted⟩ := hstore _ _ hstore2
  refine ⟨?_, ?_, ?_⟩
  · intro r hr
    rw [hres] at hr
    obtain ⟨hit, hhit, rfl⟩ := List.mem_map.mp hr
    exact hthresh hit hhit
  · rw [hres]
    rw [List.pairwise_map]
    exact hsorted.imp (fun h => h)
  · refine
      ⟨{ vector := emb, limit := body.limit.getD 5, with_payload := true,
         score_threshold := mkRat 7 10 }, ?_, rfl⟩
    rw [hev]
    simp

/-- Witness for C7 at a store that filters by the request's threshold over
two descending hits: both results clear seven tenths and stay ordered. -/
theorem search_threshold_sorted_witness :
    (∀ r ∈ [formatResult hitA, formatResult hitB], mkRat 7 10 ≤ r.similarity_score) ∧
    List.Pairwise (fun a b => b.similarity_score ≤ a.similarity_score)
      [formatResult hitA, formatResult hitB] ∧
    (∃ req, SearchEvent.qdrantSearch req ∈
        [SearchEvent.embedCall ['x'],
          SearchEvent.qdrantSearch
            { vector := [1], limit := 5, with_payload := true,
              score_threshold := mkRat 7 10 }] ∧
      req.score_threshold = mkRat 7 10) := by
  have hmain := search_threshold_sorted { query := some ['x'], limit := none }
    (fun _ => some [1])
    (fun req => some ([hitA, hitB].filter (fun h => req.score_threshold ≤ h.score)))
    ['x'] [formatResult hitA, formatResult hitB] 2
    [SearchEvent.embedCall ['x'],
      SearchEvent.qdrantSearch
        { vector := [1], limit := 5, with_payload := true,
          score_threshold := mkRat 7 10 }]
    rfl
    (by
      intro req hits hst
      injection hst with he
      subst he
      constructor
      · intro hit hh
        have := List.of_mem_filter hh
        exact of_decide_eq_true this
      · exact List.Pairwise.sublist (List.filter_sublist _) (by decide))
  exact hmain

end GHL
